import Mathlib

/-!
Verification development for the ChatBetween-2018 UDP chat/file-transfer
program (`ChatClass.cpp`).  The file-transfer engine is shallowly embedded:
byte buffers become `List Nat` (one `Nat` per byte), the on-disk directory
becomes an association list from file names to file contents, the registry
of inbound-transfer control blocks (`std::vector<file_sent_control>
send_control`) becomes a `List file_sent_control`, and the wall clock
(`time(NULL)`) becomes an explicit `Nat` parameter.  `fwrite` results are
supplied by an explicit oracle list (one entry per call, `0` modelling a
failed write); an exhausted oracle means every further write fails.
-/

/-! ## Constants from ChatClass.h -/

def MAX_OUT_DATA_SIZE : Nat := 1024

def MAX_OUT_FILE_NAME_SIZE : Nat := 256

def MAX_FILE_WRITE_RETRY_COUNT : Nat := 20

def MAX_FILE_OVERWRITE_CHECK : Nat := 20

def XFER_HDR_CMD_SIZE : Nat := 11

def XFER_HDR_NAME_SZIE : Nat := 101

def trans_type_send : Int := 1

def trans_type_get_request : Int := 2

/-- `sizeof(file_transfer_header)` on the target platform: an 11-byte
`header_command`, a 101-byte `file_name` (ending at offset 112), then the
4-byte `int file_size` at offset 112 (already 4-aligned) and the 4-byte
`transfer_type trans_type` at offset 116, for 120 bytes total. -/
def header_size : Nat := 120

/-- The bytes of the command tag `":xfer:"`. -/
def xfer_tag : List Nat := [58, 120, 102, 101, 114, 58]

/-! ## Data model -/

/-- Decoded `file_transfer_header` struct. -/
structure file_transfer_header where
  header_command : List Nat
  file_name : List Nat
  file_size : Int
  trans_type : Int
deriving Repr, DecidableEq, Inhabited

/-- One `file_sent_control` entry of the `send_control` vector.  The
`FILE * out_file_p` handle is modelled by the `out_file_open` flag plus
the name of the disk file it writes to. -/
structure file_sent_control where
  in_file_transfer : Bool
  to_receive_count : Int
  out_file_open : Bool
  out_file_name : List Nat
  transfer_start_time : Nat
  ip_address : String
deriving Repr, DecidableEq, Inhabited

/-- The launch directory: file name (byte string) to file contents. -/
abbrev Disk := List (List Nat × List Nat)

structure ChatState where
  send_control : List file_sent_control
  disk : Disk
deriving Repr, DecidableEq, Inhabited

/-- Observable file-system side effects (the `fclose`/`fopen("wb")` calls). -/
inductive Event where
  | fileClosed (name : List Nat)
  | fileCreated (name : List Nat)
deriving Repr, DecidableEq

/-- What `read_data` reports back to its caller: either the frame was
consumed internally (`read_count` forced to `0`) or the raw bytes stand. -/
inductive ReadResult where
  | consumed
  | text (bytes : List Nat)
deriving Repr, DecidableEq

/-! ## Disk primitives -/

/-- `fopen(name, "rb") != NULL`: does the file exist? -/
def fileExists (nm : List Nat) (d : Disk) : Bool :=
  d.any (fun e => e.1 == nm)

/-- `fopen(name, "wb")`: create (or truncate) the file.  New entries shadow
older ones; all reads and writes use the first matching entry. -/
def createFile (nm : List Nat) (d : Disk) : Disk :=
  (nm, []) :: d

/-- `fwrite` of `bytes` to the open file `nm`: append to the first entry. -/
def appendFile (nm : List Nat) (bytes : List Nat) : Disk → Disk
  | [] => []
  | e :: rest =>
    if e.1 == nm then (e.1, e.2 ++ bytes) :: rest
    else e :: appendFile nm bytes rest

/-! ## Header codec (the raw `memcpy` overlay of `file_transfer_header`) -/

/-- Little-endian decode of a 4-byte `int`. -/
def decode_i32le (b0 b1 b2 b3 : Nat) : Int :=
  let v : Nat := b0 % 256 + 256 * (b1 % 256) + 65536 * (b2 % 256) +
    16777216 * (b3 % 256)
  if v < 2147483648 then (v : Int) else (v : Int) - 4294967296

/-- The `memcpy((char *)&file_header, this_data_p, sizeof(file_header))`
overlay.  It always reads `header_size` bytes from the receive buffer; a
position past the end of the supplied list stands for the zero-initialised
remainder of `udp_inbound_buffer` and decodes as `0`. -/
def decode_header (buf : List Nat) : file_transfer_header :=
  { header_command := (List.range XFER_HDR_CMD_SIZE).map (fun i => buf.getD i 0)
    file_name := (List.range XFER_HDR_NAME_SZIE).map
      (fun i => buf.getD (XFER_HDR_CMD_SIZE + i) 0)
    file_size := decode_i32le (buf.getD 112 0) (buf.getD 113 0)
      (buf.getD 114 0) (buf.getD 115 0)
    trans_type := decode_i32le (buf.getD 116 0) (buf.getD 117 0)
      (buf.getD 118 0) (buf.getD 119 0) }

/-- `strncmp(udp_inbound_buffer, ":xfer:", 6) == 0`. -/
def is_xfer_frame (buf : List Nat) : Bool :=
  buf.take 6 == xfer_tag

/-! ## Registry lookup -/

/-- `ChatClass::find_send_control`: linear scan of `send_control` for the
first entry whose `ip_address` matches; `CONTROL_NOT_FOUND` becomes `none`. -/
def find_send_control (ip : String) : List file_sent_control → Option Nat
  | [] => none
  | b :: rest =>
    if b.ip_address = ip then some 0
    else (find_send_control ip rest).map (· + 1)

/-- `send_control[idx]`: the vector element the found index designates.
A plain `def` so that it stays folded while the surrounding operation is
unfolded in proofs. -/
def blockAt (l : List file_sent_control) (i : Nat) : file_sent_control :=
  l.getD i default

/-! ## The fwrite retry loop of receive_file_block -/

/-- The `while (this_byte_size > 0 && write_try_count < MAX)` loop.  Takes
the oracle of `fwrite` results, the bytes still to write, and the current
`write_try_count`; returns the number of bytes left unwritten when the
loop exits.  An exhausted oracle means every remaining call returns `0`,
so the retry counter runs out and the bytes stay unwritten. -/
def write_loop (oracle : List Nat) (bytes : Nat) (tryCount : Nat) : Nat :=
  match oracle with
  | [] => bytes
  | r :: rest =>
    if bytes = 0 || MAX_FILE_WRITE_RETRY_COUNT ≤ tryCount then bytes
    else if 0 < r then write_loop rest (bytes - r) 0
    else write_loop rest bytes (tryCount + 1)

/-! ## receive_file_block -/

/-- `ChatClass::receive_file_block`.  Returns the new state, the
`are_receiving` flag reported to `read_data`, and the file-system events.
The counter deduction mirrors the source exactly: `to_receive_count` is
reduced by `orig_block_size` (the full requested size, not the bytes
actually written) and only when `to_receive_count >= orig_block_size`. -/
def receive_file_block (chunk : List Nat) (oracle : List Nat) (now : Nat)
    (ip : String) (st : ChatState) : ChatState × Bool × List Event :=
  match find_send_control ip st.send_control with
  | none => (st, false, [])
  | some idx =>
    let blk := blockAt st.send_control idx
    if blk.in_file_transfer && blk.out_file_open then
      let disk' := appendFile blk.out_file_name
        (chunk.take (chunk.length - write_loop oracle chunk.length 0)) st.disk
      let count' : Int :=
        if (chunk.length : Int) ≤ blk.to_receive_count then
          blk.to_receive_count - (chunk.length : Int)
        else blk.to_receive_count
      if count' = 0 then
        ({ send_control := st.send_control.eraseIdx idx, disk := disk' },
          true, [Event.fileClosed blk.out_file_name])
      else
        ({ send_control := st.send_control.set idx
            { blk with to_receive_count := count', transfer_start_time := now },
           disk := disk' }, true, [])
    else (st, false, [])

/-! ## File-name selection of receive_file_start -/

/-- `strcpy` from the header's `file_name` field: the bytes before the
first NUL. -/
def cString (l : List Nat) : List Nat := l.takeWhile (fun b => b ≠ 0)

def decDigitsGo : Nat → Nat → List Nat
  | _, 0 => []
  | 0, _ => []
  | fuel + 1, n + 1 =>
    decDigitsGo fuel ((n + 1) / 10) ++ [48 + (n + 1) % 10]

/-- `sprintf(to_append, "%d", k)` for a non-negative `k`: ASCII decimal. -/
def asciiDigits (k : Nat) : List Nat :=
  if k = 0 then [48] else decDigitsGo k k

/-- One candidate output name: the requested name, with the decimal try
counter appended whenever `name_try_count > 0` (which, because of the
post-increment in the loop condition, is every iteration). -/
def name_candidate (base : List Nat) (k : Nat) : List Nat :=
  if 0 < k then base ++ asciiDigits k else base

/-- The `while (!have_file_name && name_try_count++ < MAX)` loop of
`receive_file_start`, with `c` the value of `name_try_count` before the
post-increment.  The fuel argument only bounds recursion; it never decides
the result because `c` grows by one per call and the `c < MAX` guard fires
first. -/
def pick_name_go (base : List Nat) (d : Disk) : Nat → Nat → Option (List Nat)
  | 0, _ => none
  | fuel + 1, c =>
    if c < MAX_FILE_OVERWRITE_CHECK then
      let nm := name_candidate (cString base) (c + 1)
      if fileExists nm d then pick_name_go base d fuel (c + 1) else some nm
    else none

/-- The output-name search: the first of the candidate names
`base ++ "1"`, `base ++ "2"`, ..., `base ++ "20"` that does not already
exist on disk, or `none` when all twenty exist. -/
def pick_file_name (base : List Nat) (d : Disk) : Option (List Nat) :=
  pick_name_go base d (MAX_FILE_OVERWRITE_CHECK + 1) 0

/-! ## receive_file_start -/

/-- The opening of `receive_file_start` (source lines 592-623): if a
transfer from this sender is in progress its file is closed, and the
entry is erased from the vector in every case. -/
def abort_previous (ip : String) (st : ChatState) : ChatState × List Event :=
  match find_send_control ip st.send_control with
  | some idx =>
    ({ st with send_control := st.send_control.eraseIdx idx },
      if (blockAt st.send_control idx).in_file_transfer &&
          (blockAt st.send_control idx).out_file_open then
        [Event.fileClosed (blockAt st.send_control idx).out_file_name]
      else [])
  | none => (st, [])

/-- The control block `receive_file_start` fills in before `push_back`:
flagged as transferring, expecting `file_size` bytes, output file open
under the chosen name, timer started at `now`, keyed by the sender. -/
def new_control (buf : List Nat) (now : Nat) (ip : String) (nm : List Nat) :
    file_sent_control :=
  { in_file_transfer := true
    to_receive_count := (decode_header buf).file_size
    out_file_open := true
    out_file_name := nm
    transfer_start_time := now
    ip_address := ip }

/-- `ChatClass::receive_file_start`.  `buf` is the receive buffer (header
bytes first), `rc` the datagram's byte count (`this_byte_size`).  Mirrors
the source order: abort-and-erase any existing entry for the sender, then
the `file_size == 0` early return, then the name search, creation of the
control block and output file, and finally the trailing first chunk when
the datagram is longer than the header. -/
def receive_file_start (buf : List Nat) (rc : Nat) (oracle : List Nat)
    (now : Nat) (ip : String) (st : ChatState) : ChatState × List Event :=
  let st1 : ChatState := (abort_previous ip st).1
  let ev1 : List Event := (abort_previous ip st).2
  let hdr := decode_header buf
  if hdr.file_size = 0 then (st1, ev1)
  else
    match pick_file_name hdr.file_name st1.disk with
    | none => (st1, ev1)
    | some nm =>
      let st2 : ChatState :=
        { send_control := st1.send_control ++ [new_control buf now ip nm]
          disk := createFile nm st1.disk }
      let ev2 := ev1 ++ [Event.fileCreated nm]
      if header_size < rc then
        ((receive_file_block ((buf.drop header_size).take (rc - header_size))
            oracle now ip st2).1,
          ev2 ++ (receive_file_block ((buf.drop header_size).take
            (rc - header_size)) oracle now ip st2).2.2)
      else (st2, ev2)

/-! ## file_transfer and read_data -/

/-- `ChatClass::file_transfer`: decode the header and dispatch on
`trans_type`.  A get request replies with `send_file`, which only reads
the local disk, so the registry and disk are untouched; an unknown kind
silently does nothing. -/
def file_transfer (buf : List Nat) (rc : Nat) (oracle : List Nat) (now : Nat)
    (ip : String) (st : ChatState) : ChatState × List Event :=
  let hdr := decode_header buf
  if hdr.trans_type = trans_type_send then
    receive_file_start buf rc oracle now ip st
  else if hdr.trans_type = trans_type_get_request then (st, [])
  else (st, [])

/-- `ChatClass::read_data` for a received frame of `rc > 0` bytes sitting
at the start of `buf` (the rest of `buf` is the remainder of the 2 KiB
`udp_inbound_buffer`).  Returns the state, what is reported to the caller,
and the file-system events. -/
def read_data (buf : List Nat) (rc : Nat) (oracle : List Nat) (now : Nat)
    (ip : String) (st : ChatState) : ChatState × ReadResult × List Event :=
  if is_xfer_frame buf then
    ((file_transfer buf rc oracle now ip st).1, ReadResult.consumed,
      (file_transfer buf rc oracle now ip st).2)
  else
    if (receive_file_block (buf.take rc) oracle now ip st).2.1 then
      ((receive_file_block (buf.take rc) oracle now ip st).1,
        ReadResult.consumed,
        (receive_file_block (buf.take rc) oracle now ip st).2.2)
    else
      ((receive_file_block (buf.take rc) oracle now ip st).1,
        ReadResult.text (buf.take rc),
        (receive_file_block (buf.take rc) oracle now ip st).2.2)

/-! ## transfer_timed_out -/

/-- The per-entry condition of `ChatClass::transfer_timed_out`: the timer
is running and `current_time >= transfer_start_time + 10`. -/
def expired (now : Nat) (b : file_sent_control) : Bool :=
  decide (0 < b.transfer_start_time) && decide (b.transfer_start_time + 10 ≤ now)

/-- The restart-scan of `transfer_timed_out`: with the clock fixed at
`now`, repeatedly removing the first expired entry and rescanning from
the beginning removes every expired entry in order, closing the output
file of each one that is open. -/
def timed_out_go (now : Nat) :
    List file_sent_control → List file_sent_control × Bool × List Event
  | [] => ([], false, [])
  | b :: rest =>
    if expired now b then
      ((timed_out_go now rest).1, true,
        (if b.out_file_open then [Event.fileClosed b.out_file_name] else []) ++
          (timed_out_go now rest).2.2)
    else
      (b :: (timed_out_go now rest).1, (timed_out_go now rest).2.1,
        (timed_out_go now rest).2.2)

/-- `ChatClass::transfer_timed_out`: sweeps the registry and reports
whether any transfer timed out. -/
def transfer_timed_out (now : Nat) (st : ChatState) :
    ChatState × Bool × List Event :=
  ({ st with send_control := (timed_out_go now st.send_control).1 },
    (timed_out_go now st.send_control).2.1,
    (timed_out_go now st.send_control).2.2)

/-! ## send_file -/

/-- One outbound wire frame of `send_file`. -/
inductive Frame where
  | header (h : file_transfer_header)
  | data (bytes : List Nat)
deriving Repr, DecidableEq

/-- The chunking loop of `ChatClass::send_file`: while bytes remain, read
and transmit `min(remaining, C)` bytes, `C = sizeof(outbound_data)`.  The
`C - 1` formulation makes the recursion well-founded for every `C`; for
the source's `C = MAX_OUT_DATA_SIZE ≥ 1` it coincides with taking `C`
bytes at a time. -/
def send_file_chunks (C : Nat) : List Nat → List (List Nat)
  | [] => []
  | b :: rest =>
    (b :: rest.take (C - 1)) :: send_file_chunks C (rest.drop (C - 1))
termination_by l => l.length
decreasing_by
  simp only [List.length_drop, List.length_cons]
  omega

/-- The implicit narrowing in `out_count = our_status.st_size` and
`file_header.file_size = out_count`: the file size from `stat` is stored
in a C `int`, i.e. truncated to 32 bits and read back as two's
complement, so sizes of `2^31` bytes and more wrap (usually negative). -/
def wrap_i32 (n : Nat) : Int :=
  if n % 4294967296 < 2147483648 then ((n % 4294967296 : Nat) : Int)
  else ((n % 4294967296 : Nat) : Int) - 4294967296

/-- The header `send_file` builds: command tag `":xfer:"` (zero-padded to
11 bytes), the base name (zero-padded/truncated to the 101-byte field by
the `memcpy` of `sizeof(file_name) - 1` bytes into a zeroed struct),
`file_size` the `stat` size as wrapped by the `int` fields `out_count`
and `file_size`, and `trans_type = trans_type_send`. -/
def send_file_header (name : List Nat) (contents : List Nat) :
    file_transfer_header :=
  { header_command := xfer_tag ++ List.replicate (XFER_HDR_CMD_SIZE - 6) 0
    file_name := (List.range XFER_HDR_NAME_SZIE).map (fun i => name.getD i 0)
    file_size := wrap_i32 contents.length
    trans_type := trans_type_send }

/-- The data frames of the `while (out_count > 0)` loop of `send_file`,
driven by the wrapped 32-bit `out_count`.  When the wrapped size is not
positive the loop body never runs and no data frame is sent.  When it is
positive it is at most the true file length, so every `fread` returns the
whole requested block and the loop walks the first `out_count` bytes of
the file in `MAX_OUT_DATA_SIZE`-byte blocks. -/
def send_file_data (contents : List Nat) : List (List Nat) :=
  if 0 < wrap_i32 contents.length then
    send_file_chunks MAX_OUT_DATA_SIZE
      (contents.take (wrap_i32 contents.length).toNat)
  else []

/-- The frames `ChatClass::send_file` emits for an existing file: the
header frame, then the data frames of the chunking loop. -/
def send_file_frames (name : List Nat) (contents : List Nat) : List Frame :=
  Frame.header (send_file_header name contents) ::
    (send_file_data contents).map Frame.data

/-! ## Port-role assignment of the constructor -/

/-- The port assignment in `ChatClass::ChatClass`: given the count of
running `chat` processes (including this one), returns
`(transmit_port, receive_port)`. -/
def port_roles (base : Nat) (running_count : Nat) : Nat × Nat :=
  if 1 < running_count then (base, base + 1) else (base + 1, base)

/-! ## Reachable states -/

/-- States reachable from a fresh `ChatClass` (empty registry, arbitrary
launch directory) by the inbound-frame and timeout-sweep entry points.
`0 < now` records that `time(NULL)` is positive. -/
inductive Reachable : ChatState → Prop where
  | init : ∀ d : Disk, Reachable { send_control := [], disk := d }
  | step_read : ∀ (st : ChatState) (buf : List Nat) (rc : Nat)
      (oracle : List Nat) (now : Nat) (ip : String), Reachable st → 0 < now →
      Reachable (read_data buf rc oracle now ip st).1
  | step_sweep : ∀ (st : ChatState) (now : Nat), Reachable st →
      Reachable (transfer_timed_out now st).1

/-- The registry invariant: every entry is an open, in-progress transfer
with a running timer, and peer addresses are pairwise distinct. -/
def WFS (st : ChatState) : Prop :=
  (∀ b ∈ st.send_control, b.in_file_transfer = true ∧ b.out_file_open = true ∧
    0 < b.transfer_start_time) ∧
  (st.send_control.map file_sent_control.ip_address).Nodup

/-- Spec-side decoder, for comparison with the code's `decode_header`.
Modelled from the spec: `decodeHeader(bytes) -> Header | error` fails with
`MalformedHeader` if the buffer is shorter than the fixed header size. -/
def decodeHeader_spec (buf : List Nat) : Except Unit file_transfer_header :=
  if buf.length < header_size then Except.error ()
  else Except.ok (decode_header buf)

/-! ## Small list helpers -/

theorem getD_mem {α : Type} [Inhabited α] (l : List α) (i : Nat)
    (h : i < l.length) : l.getD i default ∈ l := by
  induction l generalizing i with
  | nil => simp at h
  | cons a rest ih =>
    cases i with
    | zero => simp [List.getD]
    | succ j =>
      simp only [List.length_cons] at h
      simp only [List.getD_cons_succ, List.mem_cons]
      exact Or.inr (ih j (by omega))

theorem map_set_getD {α β : Type} [Inhabited α] (l : List α) (f : α → β)
    (i : Nat) (a : α) (h : i < l.length) (hf : f a = f (l.getD i default)) :
    (l.set i a).map f = l.map f := by
  induction l generalizing i with
  | nil => simp at h
  | cons b rest ih =>
    cases i with
    | zero => simpa [List.getD] using hf
    | succ j =>
      simp only [List.length_cons] at h
      simp only [List.set, List.map_cons]
      rw [ih j (by omega) (by simpa [List.getD] using hf)]

theorem getD_append_length {α : Type} [Inhabited α] (l : List α) (a : α) :
    (l ++ [a]).getD l.length default = a := by
  induction l with
  | nil => rfl
  | cons b rest ih => simp [List.getD, ih]

theorem set_append_length {α : Type} (l : List α) (a a' : α) :
    (l ++ [a]).set l.length a' = l ++ [a'] := by
  induction l with
  | nil => rfl
  | cons b rest ih => simp [List.set, ih]

theorem eraseIdx_append_length {α : Type} (l : List α) (a : α) :
    (l ++ [a]).eraseIdx l.length = l := by
  induction l with
  | nil => rfl
  | cons b rest ih => simp [List.eraseIdx, ih]

theorem mem_of_mem_eraseIdx {α : Type} {l : List α} {i : Nat} {a : α}
    (h : a ∈ l.eraseIdx i) : a ∈ l :=
  (List.eraseIdx_sublist l i).mem h

theorem nodup_map_eraseIdx {α β : Type} (l : List α) (f : α → β) (i : Nat)
    (h : (l.map f).Nodup) : ((l.eraseIdx i).map f).Nodup :=
  h.sublist ((List.eraseIdx_sublist l i).map f)

/-! ## find_send_control characterisation -/

theorem find_send_control_none_iff (ip : String) (l : List file_sent_control) :
    find_send_control ip l = none ↔ ∀ b ∈ l, b.ip_address ≠ ip := by
  induction l with
  | nil => simp [find_send_control]
  | cons b rest ih =>
    by_cases hb : b.ip_address = ip
    · simp [find_send_control, hb]
    · simp [find_send_control, hb, ih]

theorem find_send_control_some_lt (ip : String) (l : List file_sent_control)
    (i : Nat) (h : find_send_control ip l = some i) : i < l.length := by
  induction l generalizing i with
  | nil => simp [find_send_control] at h
  | cons b rest ih =>
    by_cases hb : b.ip_address = ip
    · simp [find_send_control, hb] at h
      simp only [List.length_cons]
      omega
    · simp [find_send_control, hb] at h
      obtain ⟨j, hj, rfl⟩ := h
      have := ih j hj
      simp only [List.length_cons]
      omega

theorem find_send_control_some_ip (ip : String) (l : List file_sent_control)
    (i : Nat) (h : find_send_control ip l = some i) :
    (l.getD i default).ip_address = ip := by
  induction l generalizing i with
  | nil => simp [find_send_control] at h
  | cons b rest ih =>
    by_cases hb : b.ip_address = ip
    · simp [find_send_control, hb] at h
      simp [← h, List.getD, hb]
    · simp [find_send_control, hb] at h
      obtain ⟨j, hj, rfl⟩ := h
      simpa [List.getD] using ih j hj

theorem find_send_control_eraseIdx (ip : String) (l : List file_sent_control)
    (i : Nat) (hnd : (l.map file_sent_control.ip_address).Nodup)
    (h : find_send_control ip l = some i) :
    ∀ b ∈ l.eraseIdx i, b.ip_address ≠ ip := by
  induction l generalizing i with
  | nil => simp [find_send_control] at h
  | cons b rest ih =>
    simp only [List.map_cons, List.nodup_cons] at hnd
    by_cases hb : b.ip_address = ip
    · simp [find_send_control, hb] at h
      have hi0 : i = 0 := by omega
      subst hi0
      intro c hc hcip
      exact hnd.1 (hb ▸ hcip ▸ List.mem_map_of_mem file_sent_control.ip_address
        (by simpa [List.eraseIdx] using hc))
    · simp [find_send_control, hb] at h
      obtain ⟨j, hj, rfl⟩ := h
      intro c hc
      simp only [List.eraseIdx] at hc
      rw [List.mem_cons] at hc
      rcases hc with rfl | hc
      · exact hb
      · exact ih j hnd.2 hj c hc

theorem find_send_control_append_single (ip : String)
    (l : List file_sent_control) (a : file_sent_control)
    (hl : ∀ b ∈ l, b.ip_address ≠ ip) (ha : a.ip_address = ip) :
    find_send_control ip (l ++ [a]) = some l.length := by
  induction l with
  | nil => simp [find_send_control, ha]
  | cons b rest ih =>
    have hb : b.ip_address ≠ ip := hl b (by simp)
    simp [find_send_control, hb, ih (fun c hc => hl c (by simp [hc]))]

/-! ## Characterisation of the timeout sweep -/

theorem timed_out_go_blocks (now : Nat) (l : List file_sent_control) :
    (timed_out_go now l).1 = l.filter (fun b => ! expired now b) := by
  induction l with
  | nil => simp [timed_out_go]
  | cons b rest ih =>
    by_cases hb : expired now b
    · simp [timed_out_go, hb, ih]
    · simp only [Bool.not_eq_true] at hb
      simp [timed_out_go, hb, ih]

theorem timed_out_go_flag (now : Nat) (l : List file_sent_control) :
    (timed_out_go now l).2.1 = l.any (expired now) := by
  induction l with
  | nil => simp [timed_out_go]
  | cons b rest ih =>
    by_cases hb : expired now b
    · simp [timed_out_go, hb]
    · simp only [Bool.not_eq_true] at hb
      simp [timed_out_go, hb, ih]

theorem timed_out_go_events (now : Nat) (l : List file_sent_control) :
    (timed_out_go now l).2.2 = (l.filter (expired now)).filterMap
      (fun b => if b.out_file_open then some (Event.fileClosed b.out_file_name)
        else none) := by
  induction l with
  | nil => simp [timed_out_go]
  | cons b rest ih =>
    by_cases hb : expired now b
    · by_cases hopen : b.out_file_open
      · simp [timed_out_go, hb, hopen, ih]
      · simp only [Bool.not_eq_true] at hopen
        simp [timed_out_go, hb, hopen, ih]
    · simp only [Bool.not_eq_true] at hb
      simp [timed_out_go, hb, ih]

/-! ## Properties of the send_file chunking loop -/

theorem send_file_chunks_nil (C : Nat) : send_file_chunks C [] = [] := by
  simp [send_file_chunks]

theorem send_file_chunks_cons (C : Nat) (hC : 0 < C) (f : List Nat)
    (hf : f ≠ []) :
    send_file_chunks C f = f.take C :: send_file_chunks C (f.drop C) := by
  match f, hf with
  | b :: rest, _ =>
    rw [send_file_chunks]
    obtain ⟨C', rfl⟩ : ∃ C', C = C' + 1 := ⟨C - 1, by omega⟩
    simp [List.take_succ_cons, List.drop_succ_cons]

theorem send_file_chunks_flatten (C : Nat) (hC : 0 < C) :
    ∀ (n : Nat) (f : List Nat), f.length ≤ n →
      (send_file_chunks C f).flatten = f := by
  intro n
  induction n with
  | zero =>
    intro f h
    have : f = [] := by
      cases f with
      | nil => rfl
      | cons b rest => simp at h
    subst this
    simp [send_file_chunks_nil]
  | succ n ih =>
    intro f h
    cases f with
    | nil => simp [send_file_chunks_nil]
    | cons b rest =>
      simp only [List.length_cons] at h
      rw [send_file_chunks_cons C hC (b :: rest) (by simp)]
      rw [List.flatten_cons]
      rw [ih ((b :: rest).drop C)
        (by simp only [List.length_drop, List.length_cons]; omega)]
      exact List.take_append_drop C (b :: rest)

theorem send_file_chunks_count (C : Nat) (hC : 0 < C) :
    ∀ (n : Nat) (f : List Nat), f.length ≤ n →
      (send_file_chunks C f).length = (f.length + C - 1) / C := by
  intro n
  induction n with
  | zero =>
    intro f h
    have : f = [] := by
      cases f with
      | nil => rfl
      | cons b rest => simp at h
    subst this
    have h0 : (C - 1) / C = 0 := Nat.div_eq_of_lt (by omega)
    simp [send_file_chunks_nil, h0]
  | succ n ih =>
    intro f h
    cases f with
    | nil =>
      have h0 : (C - 1) / C = 0 := Nat.div_eq_of_lt (by omega)
      simp [send_file_chunks_nil, h0]
    | cons b rest =>
      simp only [List.length_cons] at h
      rw [send_file_chunks_cons C hC (b :: rest) (by simp)]
      rw [List.length_cons, ih ((b :: rest).drop C)
        (by simp only [List.length_drop, List.length_cons]; omega)]
      simp only [List.length_drop, List.length_cons]
      rcases Nat.lt_or_ge (rest.length + 1) C with hlt | hge
      · have h1 : rest.length + 1 - C = 0 := by omega
        rw [h1]
        have h2 : (0 + C - 1) / C = 0 := Nat.div_eq_of_lt (by omega)
        have h4 : rest.length + 1 + C - 1 = rest.length + C := by omega
        have h5 : rest.length / C = 0 := Nat.div_eq_of_lt (by omega)
        rw [h2, h4, Nat.add_div_right _ hC, h5]
      · have h1 : rest.length + 1 - C + C - 1 = rest.length + 1 - 1 := by omega
        rw [h1]
        have h2 : rest.length + 1 + C - 1 = (rest.length + 1 - 1) + C := by omega
        rw [h2, Nat.add_div_right _ hC]

theorem send_file_chunks_sizes (C : Nat) (hC : 0 < C) :
    ∀ (n : Nat) (f : List Nat), f.length ≤ n →
      (send_file_chunks C f).map List.length =
        List.replicate (f.length / C) C ++
          (if f.length % C = 0 then [] else [f.length % C]) := by
  intro n
  induction n with
  | zero =>
    intro f h
    have : f = [] := by
      cases f with
      | nil => rfl
      | cons b rest => simp at h
    subst this
    simp [send_file_chunks_nil]
  | succ n ih =>
    intro f h
    cases f with
    | nil => simp [send_file_chunks_nil]
    | cons b rest =>
      simp only [List.length_cons] at h
      rw [send_file_chunks_cons C hC (b :: rest) (by simp)]
      rw [List.map_cons, ih ((b :: rest).drop C)
        (by simp only [List.length_drop, List.length_cons]; omega)]
      simp only [List.length_drop, List.length_take, List.length_cons]
      rcases Nat.lt_or_ge (rest.length + 1) C with hlt | hge
      · have h1 : rest.length + 1 - C = 0 := by omega
        have h2 : min C (rest.length + 1) = rest.length + 1 := by omega
        have h3 : (rest.length + 1) / C = 0 := Nat.div_eq_of_lt hlt
        have h4 : (rest.length + 1) % C = rest.length + 1 :=
          Nat.mod_eq_of_lt hlt
        rw [h1, h2, h3, h4]
        simp
      · have h2 : min C (rest.length + 1) = C := by omega
        have h3 : (rest.length + 1) / C = (rest.length + 1 - C) / C + 1 :=
          Nat.div_eq_sub_div hC hge
        have h4 : (rest.length + 1) % C = (rest.length + 1 - C) % C :=
          Nat.mod_eq_sub_mod hge
        rw [h2, h3, h4, List.replicate_succ]
        simp

/-! ## Branch equations for receive_file_block -/

theorem receive_file_block_none (chunk oracle : List Nat) (now : Nat)
    (ip : String) (st : ChatState)
    (hf : find_send_control ip st.send_control = none) :
    receive_file_block chunk oracle now ip st = (st, false, []) := by
  unfold receive_file_block
  rw [hf]

theorem receive_file_block_not_open (chunk oracle : List Nat) (now : Nat)
    (ip : String) (st : ChatState) (idx : Nat)
    (hf : find_send_control ip st.send_control = some idx)
    (hg : ((blockAt st.send_control idx).in_file_transfer &&
      (blockAt st.send_control idx).out_file_open) = false) :
    receive_file_block chunk oracle now ip st = (st, false, []) := by
  unfold receive_file_block
  rw [hf]
  simp [hg]

theorem receive_file_block_complete (chunk oracle : List Nat) (now : Nat)
    (ip : String) (st : ChatState) (idx : Nat)
    (hf : find_send_control ip st.send_control = some idx)
    (hg : ((blockAt st.send_control idx).in_file_transfer &&
      (blockAt st.send_control idx).out_file_open) = true)
    (hc : (if (chunk.length : Int) ≤
        (blockAt st.send_control idx).to_receive_count then
        (blockAt st.send_control idx).to_receive_count - (chunk.length : Int)
      else (blockAt st.send_control idx).to_receive_count) = 0) :
    receive_file_block chunk oracle now ip st =
      ({ send_control := st.send_control.eraseIdx idx,
         disk := appendFile (blockAt st.send_control idx).out_file_name
           (chunk.take (chunk.length - write_loop oracle chunk.length 0))
           st.disk },
        true,
        [Event.fileClosed (blockAt st.send_control idx).out_file_name]) := by
  unfold receive_file_block
  rw [hf]
  simp only [hg, if_true, hc, if_pos rfl]

theorem receive_file_block_progress (chunk oracle : List Nat) (now : Nat)
    (ip : String) (st : ChatState) (idx : Nat)
    (hf : find_send_control ip st.send_control = some idx)
    (hg : ((blockAt st.send_control idx).in_file_transfer &&
      (blockAt st.send_control idx).out_file_open) = true)
    (hc : (if (chunk.length : Int) ≤
        (blockAt st.send_control idx).to_receive_count then
        (blockAt st.send_control idx).to_receive_count - (chunk.length : Int)
      else (blockAt st.send_control idx).to_receive_count) ≠ 0) :
    receive_file_block chunk oracle now ip st =
      ({ send_control := st.send_control.set idx
          { st.send_control.getD idx default with
            to_receive_count := (if (chunk.length : Int) ≤
                (blockAt st.send_control idx).to_receive_count then
                (blockAt st.send_control idx).to_receive_count -
                  (chunk.length : Int)
              else (blockAt st.send_control idx).to_receive_count)
            transfer_start_time := now },
         disk := appendFile (blockAt st.send_control idx).out_file_name
           (chunk.take (chunk.length - write_loop oracle chunk.length 0))
           st.disk },
        true, []) := by
  unfold receive_file_block
  rw [hf]
  simp only [hg, if_true, if_neg hc]
  rfl

/-! ## Branch equations for abort_previous and receive_file_start -/

theorem abort_previous_none (ip : String) (st : ChatState)
    (hf : find_send_control ip st.send_control = none) :
    abort_previous ip st = (st, []) := by
  unfold abort_previous
  rw [hf]

theorem abort_previous_some (ip : String) (st : ChatState) (idx : Nat)
    (hf : find_send_control ip st.send_control = some idx) :
    abort_previous ip st =
      ({ st with send_control := st.send_control.eraseIdx idx },
        if (blockAt st.send_control idx).in_file_transfer &&
            (blockAt st.send_control idx).out_file_open then
          [Event.fileClosed (blockAt st.send_control idx).out_file_name]
        else []) := by
  unfold abort_previous
  rw [hf]

theorem receive_file_start_zero (buf : List Nat) (rc : Nat)
    (oracle : List Nat) (now : Nat) (ip : String) (st : ChatState)
    (h0 : (decode_header buf).file_size = 0) :
    receive_file_start buf rc oracle now ip st = abort_previous ip st := by
  unfold receive_file_start
  simp [h0]

theorem receive_file_start_no_name (buf : List Nat) (rc : Nat)
    (oracle : List Nat) (now : Nat) (ip : String) (st : ChatState)
    (h0 : (decode_header buf).file_size ≠ 0)
    (hp : pick_file_name (decode_header buf).file_name
      (abort_previous ip st).1.disk = none) :
    receive_file_start buf rc oracle now ip st = abort_previous ip st := by
  unfold receive_file_start
  simp [h0, hp]

theorem receive_file_start_created (buf : List Nat) (rc : Nat)
    (oracle : List Nat) (now : Nat) (ip : String) (st : ChatState)
    (nm : List Nat) (h0 : (decode_header buf).file_size ≠ 0)
    (hp : pick_file_name (decode_header buf).file_name
      (abort_previous ip st).1.disk = some nm)
    (hrc : ¬ header_size < rc) :
    receive_file_start buf rc oracle now ip st =
      ({ send_control := (abort_previous ip st).1.send_control ++
          [new_control buf now ip nm]
         disk := createFile nm (abort_previous ip st).1.disk },
        (abort_previous ip st).2 ++ [Event.fileCreated nm]) := by
  unfold receive_file_start
  simp [h0, hp, hrc]

theorem receive_file_start_created_chunk (buf : List Nat) (rc : Nat)
    (oracle : List Nat) (now : Nat) (ip : String) (st : ChatState)
    (nm : List Nat) (h0 : (decode_header buf).file_size ≠ 0)
    (hp : pick_file_name (decode_header buf).file_name
      (abort_previous ip st).1.disk = some nm)
    (hrc : header_size < rc) :
    receive_file_start buf rc oracle now ip st =
      ((receive_file_block ((buf.drop header_size).take (rc - header_size))
          oracle now ip
          { send_control := (abort_previous ip st).1.send_control ++
              [new_control buf now ip nm]
            disk := createFile nm (abort_previous ip st).1.disk }).1,
        ((abort_previous ip st).2 ++ [Event.fileCreated nm]) ++
          (receive_file_block ((buf.drop header_size).take (rc - header_size))
            oracle now ip
            { send_control := (abort_previous ip st).1.send_control ++
                [new_control buf now ip nm]
              disk := createFile nm (abort_previous ip st).1.disk }).2.2) := by
  unfold receive_file_start
  simp [h0, hp, hrc]

/-! ## Preservation of the registry invariant -/

theorem blockAt_mem (l : List file_sent_control) (i : Nat) (h : i < l.length) :
    blockAt l i ∈ l :=
  getD_mem l i h

theorem nodup_map_concat (l : List file_sent_control) (a : file_sent_control)
    (h : (l.map file_sent_control.ip_address).Nodup)
    (ha : ∀ b ∈ l, b.ip_address ≠ a.ip_address) :
    ((l ++ [a]).map file_sent_control.ip_address).Nodup := by
  rw [List.map_append, List.nodup_append]
  refine ⟨h, List.nodup_singleton _, ?_⟩
  intro x hx
  simp only [List.mem_map] at hx
  obtain ⟨b, hb, rfl⟩ := hx
  simp only [List.map_cons, List.map_nil, List.mem_singleton]
  exact ha b hb

theorem nodup_map_set_same_ip (l : List file_sent_control) (i : Nat)
    (a : file_sent_control) (hlt : i < l.length)
    (hip : a.ip_address = (blockAt l i).ip_address)
    (h : (l.map file_sent_control.ip_address).Nodup) :
    ((l.set i a).map file_sent_control.ip_address).Nodup := by
  rw [map_set_getD l file_sent_control.ip_address i a hlt hip]
  exact h

theorem wfs_block_preserved (chunk oracle : List Nat) (now : Nat)
    (ip : String) (st : ChatState) (hnow : 0 < now) (h : WFS st) :
    WFS (receive_file_block chunk oracle now ip st).1 := by
  cases hf : find_send_control ip st.send_control with
  | none => rw [receive_file_block_none chunk oracle now ip st hf]; exact h
  | some idx =>
    have hlt := find_send_control_some_lt ip st.send_control idx hf
    have hgood := h.1 (blockAt st.send_control idx) (blockAt_mem _ _ hlt)
    have hg : ((blockAt st.send_control idx).in_file_transfer &&
        (blockAt st.send_control idx).out_file_open) = true := by
      rw [hgood.1, hgood.2.1]
      rfl
    by_cases hc : (if (chunk.length : Int) ≤
        (blockAt st.send_control idx).to_receive_count then
        (blockAt st.send_control idx).to_receive_count - (chunk.length : Int)
      else (blockAt st.send_control idx).to_receive_count) = 0
    · rw [receive_file_block_complete chunk oracle now ip st idx hf hg hc]
      exact ⟨fun b hb => h.1 b (mem_of_mem_eraseIdx hb),
        nodup_map_eraseIdx _ _ _ h.2⟩
    · rw [receive_file_block_progress chunk oracle now ip st idx hf hg hc]
      constructor
      · intro b hb
        rcases List.mem_or_eq_of_mem_set hb with hb' | rfl
        · exact h.1 b hb'
        · exact ⟨hgood.1, hgood.2.1, hnow⟩
      · exact nodup_map_set_same_ip st.send_control idx _ hlt rfl h.2

theorem wfs_abort (ip : String) (st : ChatState) (h : WFS st) :
    WFS (abort_previous ip st).1 := by
  cases hf : find_send_control ip st.send_control with
  | none => rw [abort_previous_none ip st hf]; exact h
  | some idx =>
    rw [abort_previous_some ip st idx hf]
    exact ⟨fun b hb => h.1 b (mem_of_mem_eraseIdx hb),
      nodup_map_eraseIdx _ _ _ h.2⟩

theorem abort_no_ip (ip : String) (st : ChatState) (h : WFS st) :
    ∀ b ∈ (abort_previous ip st).1.send_control, b.ip_address ≠ ip := by
  cases hf : find_send_control ip st.send_control with
  | none =>
    rw [abort_previous_none ip st hf]
    exact (find_send_control_none_iff ip st.send_control).mp hf
  | some idx =>
    rw [abort_previous_some ip st idx hf]
    exact find_send_control_eraseIdx ip st.send_control idx h.2 hf

theorem wfs_start_preserved (buf : List Nat) (rc : Nat) (oracle : List Nat)
    (now : Nat) (ip : String) (st : ChatState) (hnow : 0 < now)
    (h : WFS st) : WFS (receive_file_start buf rc oracle now ip st).1 := by
  by_cases h0 : (decode_header buf).file_size = 0
  · rw [receive_file_start_zero buf rc oracle now ip st h0]
    exact wfs_abort ip st h
  · cases hp : pick_file_name (decode_header buf).file_name
      (abort_previous ip st).1.disk with
    | none =>
      rw [receive_file_start_no_name buf rc oracle now ip st h0 hp]
      exact wfs_abort ip st h
    | some nm =>
      have hwf2 : WFS
          { send_control := (abort_previous ip st).1.send_control ++
              [new_control buf now ip nm],
            disk := createFile nm (abort_previous ip st).1.disk } := by
        constructor
        · intro b hb
          rw [List.mem_append] at hb
          rcases hb with hb | hb
          · exact (wfs_abort ip st h).1 b hb
          · rw [List.mem_singleton] at hb
            subst hb
            exact ⟨rfl, rfl, hnow⟩
        · exact nodup_map_concat _ _ (wfs_abort ip st h).2
            (abort_no_ip ip st h)
      by_cases hrc : header_size < rc
      · rw [receive_file_start_created_chunk buf rc oracle now ip st nm h0 hp hrc]
        exact wfs_block_preserved _ _ _ _ _ hnow hwf2
      · rw [receive_file_start_created buf rc oracle now ip st nm h0 hp hrc]
        exact hwf2

/-! ## Branch equations for file_transfer and read_data -/

theorem file_transfer_send_eq (buf : List Nat) (rc : Nat) (oracle : List Nat)
    (now : Nat) (ip : String) (st : ChatState)
    (ht : (decode_header buf).trans_type = trans_type_send) :
    file_transfer buf rc oracle now ip st =
      receive_file_start buf rc oracle now ip st := by
  unfold file_transfer
  simp [ht]

theorem file_transfer_other_eq (buf : List Nat) (rc : Nat) (oracle : List Nat)
    (now : Nat) (ip : String) (st : ChatState)
    (ht : (decode_header buf).trans_type ≠ trans_type_send) :
    file_transfer buf rc oracle now ip st = (st, []) := by
  unfold file_transfer
  simp only [ht, if_false, ite_self]

theorem read_data_xfer_eq (buf : List Nat) (rc : Nat) (oracle : List Nat)
    (now : Nat) (ip : String) (st : ChatState)
    (hx : is_xfer_frame buf = true) :
    read_data buf rc oracle now ip st =
      ((file_transfer buf rc oracle now ip st).1, ReadResult.consumed,
        (file_transfer buf rc oracle now ip st).2) := by
  unfold read_data
  simp [hx]

theorem read_data_data_eq (buf : List Nat) (rc : Nat) (oracle : List Nat)
    (now : Nat) (ip : String) (st : ChatState)
    (hx : is_xfer_frame buf = false) :
    read_data buf rc oracle now ip st =
      ((receive_file_block (buf.take rc) oracle now ip st).1,
        (if (receive_file_block (buf.take rc) oracle now ip st).2.1 then
          ReadResult.consumed else ReadResult.text (buf.take rc)),
        (receive_file_block (buf.take rc) oracle now ip st).2.2) := by
  unfold read_data
  rw [hx]
  by_cases hb : (receive_file_block (buf.take rc) oracle now ip st).2.1
  · simp [hb]
  · simp [hb]

theorem wfs_read_preserved (buf : List Nat) (rc : Nat) (oracle : List Nat)
    (now : Nat) (ip : String) (st : ChatState) (hnow : 0 < now)
    (h : WFS st) : WFS (read_data buf rc oracle now ip st).1 := by
  by_cases hx : is_xfer_frame buf
  · rw [read_data_xfer_eq buf rc oracle now ip st hx]
    by_cases ht : (decode_header buf).trans_type = trans_type_send
    · rw [file_transfer_send_eq buf rc oracle now ip st ht]
      exact wfs_start_preserved buf rc oracle now ip st hnow h
    · rw [file_transfer_other_eq buf rc oracle now ip st ht]
      exact h
  · rw [read_data_data_eq buf rc oracle now ip st (by simpa using hx)]
    exact wfs_block_preserved _ _ _ _ _ hnow h

theorem wfs_sweep_preserved (now : Nat) (st : ChatState) (h : WFS st) :
    WFS (transfer_timed_out now st).1 := by
  unfold transfer_timed_out
  rw [timed_out_go_blocks]
  constructor
  · intro b hb
    exact h.1 b (List.mem_of_mem_filter hb)
  · exact h.2.sublist ((List.filter_sublist st.send_control).map
      file_sent_control.ip_address)

/-- Every reachable state satisfies the registry invariant. -/
theorem reachable_wfs (st : ChatState) (h : Reachable st) : WFS st := by
  induction h with
  | init d => exact ⟨by simp, by simp⟩
  | step_read st buf rc oracle now ip hr hnow ih =>
    exact wfs_read_preserved buf rc oracle now ip st hnow ih
  | step_sweep st now hr ih => exact wfs_sweep_preserved now st ih

/-! ## Concrete fixtures used by witnesses and counterexamples -/

/-- A registry entry mid-transfer: 5 bytes still expected from 10.0.0.1,
writing to the file named by the single byte 102. -/
def demo_block : file_sent_control :=
  { in_file_transfer := true, to_receive_count := 5, out_file_open := true,
    out_file_name := [102], transfer_start_time := 1,
    ip_address := "10.0.0.1" }

def demo_state : ChatState :=
  { send_control := [demo_block], disk := [([102], [])] }

/-- A 120-byte Send header frame: tag, zero name field, `file_size = 5`,
`trans_type = 1`. -/
def hdrbuf : List Nat := xfer_tag ++ List.replicate 106 0 ++ [5, 0, 0, 0, 1, 0, 0, 0]

/-- A 120-byte Send header frame with `file_size = 0`. -/
def zbuf : List Nat := xfer_tag ++ List.replicate 106 0 ++ [0, 0, 0, 0, 1, 0, 0, 0]

/-- The bytes of `"report.txt"`. -/
def report_txt : List Nat := [114, 101, 112, 111, 114, 116, 46, 116, 120, 116]

/-- The control block a fresh receiver creates for `hdrbuf`: 5 bytes
expected from 10.0.0.1 into the file named `"1"` (byte 49). -/
def st_ex_block : file_sent_control :=
  { in_file_transfer := true, to_receive_count := 5, out_file_open := true,
    out_file_name := [49], transfer_start_time := 1,
    ip_address := "10.0.0.1" }

/-- The state after a fresh receiver handles `hdrbuf`. -/
def st_ex : ChatState :=
  { send_control := [st_ex_block], disk := [([49], [])] }

theorem st_ex_reachable : Reachable st_ex := by
  have h := Reachable.step_read { send_control := [], disk := [] } hdrbuf 120
    [] 1 "10.0.0.1" (Reachable.init []) (by decide)
  have he : (read_data hdrbuf 120 [] 1 "10.0.0.1"
      { send_control := [], disk := [] }).1 = st_ex := by decide
  rw [he] at h
  exact h

/-! ## C1 -/

theorem wrap_i32_small (n : Nat) (h : n < 2147483648) :
    wrap_i32 n = (n : Int) := by
  unfold wrap_i32
  rw [Nat.mod_eq_of_lt (by omega)]
  rw [if_pos h]

theorem send_file_data_small (f : List Nat) (h : f.length < 2147483648) :
    send_file_data f = send_file_chunks MAX_OUT_DATA_SIZE f := by
  unfold send_file_data
  rw [wrap_i32_small f.length h]
  by_cases h0 : 0 < f.length
  · rw [if_pos (by exact_mod_cast h0)]
    rw [Int.toNat_natCast, List.take_length]
  · have hf : f = [] := List.length_eq_zero.mp (by omega)
    subst hf
    rw [if_neg (by decide)]
    rw [send_file_chunks_nil]

/-- C1 counterexample: for a file of exactly `2^31` zero bytes the C
`int` holding the size wraps to `-2^31`, so `send_file` emits a header
carrying `file_size = -2147483648` and not a single data chunk, while
the claim promises `ceil(2^31/1024) = 2097152` chunks of which the
concatenation reconstructs the file. -/
theorem C1_wrap_counterexample :
    (List.replicate 2147483648 0).length = 2147483648 ∧
    wrap_i32 2147483648 = -2147483648 ∧
    send_file_data (List.replicate 2147483648 0) = [] ∧
    (send_file_header [110] (List.replicate 2147483648 0)).file_size =
      -2147483648 ∧
    ((List.replicate 2147483648 0).length + MAX_OUT_DATA_SIZE - 1) /
      MAX_OUT_DATA_SIZE = 2097152 ∧ (2097152 : Nat) ≠ 0 := by
  have hlen : (List.replicate 2147483648 0).length = 2147483648 :=
    List.length_replicate 2147483648 0
  have hw : wrap_i32 2147483648 = -2147483648 := by decide
  refine ⟨hlen, hw, ?_, ?_, ?_, by decide⟩
  · unfold send_file_data
    rw [hlen, hw]
    rw [if_neg (by decide)]
  · simp only [send_file_header]
    rw [hlen, hw]
  · rw [hlen]
    decide

/-- C1 (amended): for every file of `N` bytes with `N < 2^31` - so the C
`int` holding the `stat` size does not wrap - and every chunk size `C`
(1024 in the source), `send_file` transmits one header frame carrying
`file_size = N` followed by exactly `ceil(N/C)` data chunks, each of size
`C` except a final chunk of size `N mod C` when `N` is not a multiple of
`C`, in file order, and the concatenation of the chunks equals the file's
bytes exactly. -/
theorem C1_send_file_chunking (C : Nat) (hC : 0 < C) (name f : List Nat)
    (hN : f.length < 2147483648) :
    (send_file_chunks C f).length = (f.length + C - 1) / C ∧
    (send_file_chunks C f).flatten = f ∧
    (send_file_chunks C f).map List.length =
      List.replicate (f.length / C) C ++
        (if f.length % C = 0 then [] else [f.length % C]) ∧
    send_file_frames name f =
      Frame.header (send_file_header name f) ::
        (send_file_chunks MAX_OUT_DATA_SIZE f).map Frame.data ∧
    (send_file_header name f).file_size = (f.length : Int) :=
  ⟨send_file_chunks_count C hC f.length f le_rfl,
   send_file_chunks_flatten C hC f.length f le_rfl,
   send_file_chunks_sizes C hC f.length f le_rfl,
   by unfold send_file_frames; rw [send_file_data_small f hN],
   show wrap_i32 f.length = (f.length : Int) from wrap_i32_small f.length hN⟩

/-- C1 witness: the chunking property evaluated at chunk size 4 on a
10-byte file (chunks of 4, 4, 2), well below the wrap bound. -/
theorem C1_send_file_chunking_witness :
    (0 < 4 ∧ (List.range 10).length < 2147483648) ∧
    ((send_file_chunks 4 (List.range 10)).length =
        ((List.range 10).length + 4 - 1) / 4 ∧
      (send_file_chunks 4 (List.range 10)).flatten = List.range 10 ∧
      (send_file_chunks 4 (List.range 10)).map List.length =
        List.replicate ((List.range 10).length / 4) 4 ++
          (if (List.range 10).length % 4 = 0 then []
            else [(List.range 10).length % 4]) ∧
      send_file_frames [110] (List.range 10) =
        Frame.header (send_file_header [110] (List.range 10)) ::
          (send_file_chunks MAX_OUT_DATA_SIZE (List.range 10)).map Frame.data ∧
      (send_file_header [110] (List.range 10)).file_size =
        ((List.range 10).length : Int)) :=
  ⟨⟨by decide, by decide⟩,
    C1_send_file_chunking 4 (by decide) [110] (List.range 10) (by decide)⟩

/-! ## C2 -/

/-- The counter update of `receive_file_block`: deduct the full requested
block size, but only when it does not exceed the bytes still expected. -/
def next_count (chunk : List Nat) (b : file_sent_control) : Int :=
  if (chunk.length : Int) ≤ b.to_receive_count then
    b.to_receive_count - (chunk.length : Int)
  else b.to_receive_count

/-- C2 counterexample: a 10-byte chunk arriving when only 5 bytes remain
does not floor the counter at zero and does not trigger completion - the
block stays in the registry with `to_receive_count` still 5. -/
theorem C2_no_floor_counterexample :
    demo_block.to_receive_count = 5 ∧ (List.replicate 10 65).length = 10 ∧
    (receive_file_block (List.replicate 10 65) [10] 2 "10.0.0.1"
      demo_state).1.send_control.map file_sent_control.to_receive_count = [5] ∧
    (receive_file_block (List.replicate 10 65) [10] 2 "10.0.0.1"
      demo_state).1.send_control ≠ [] := by
  decide

/-- C2 (amended): `to_receive_count` never increases and never underflows:
a chunk whose size is at most the remaining count decrements the counter by
exactly the chunk size, while a chunk whose size exceeds the remaining
count leaves the counter unchanged - it is not floored at zero and does not
trigger completion; completion (output closed, block removed) occurs
exactly when the counter reaches zero. -/
theorem C2_remaining_monotone (chunk oracle : List Nat) (now : Nat)
    (ip : String) (st : ChatState) (idx : Nat)
    (hf : find_send_control ip st.send_control = some idx)
    (hin : (blockAt st.send_control idx).in_file_transfer = true)
    (hop : (blockAt st.send_control idx).out_file_open = true) :
    next_count chunk (blockAt st.send_control idx) ≤
      (blockAt st.send_control idx).to_receive_count ∧
    (0 ≤ (blockAt st.send_control idx).to_receive_count →
      0 ≤ next_count chunk (blockAt st.send_control idx)) ∧
    (next_count chunk (blockAt st.send_control idx) = 0 →
      (receive_file_block chunk oracle now ip st).1.send_control =
        st.send_control.eraseIdx idx ∧
      (receive_file_block chunk oracle now ip st).2.2 =
        [Event.fileClosed (blockAt st.send_control idx).out_file_name]) ∧
    (next_count chunk (blockAt st.send_control idx) ≠ 0 →
      (receive_file_block chunk oracle now ip st).1.send_control =
        st.send_control.set idx
          { blockAt st.send_control idx with
            to_receive_count := next_count chunk (blockAt st.send_control idx)
            transfer_start_time := now } ∧
      (receive_file_block chunk oracle now ip st).2.2 = []) := by
  have hg : ((blockAt st.send_control idx).in_file_transfer &&
      (blockAt st.send_control idx).out_file_open) = true := by
    rw [hin, hop]
    rfl
  refine ⟨?_, ?_, ?_, ?_⟩
  · unfold next_count
    split <;> omega
  · intro h0
    unfold next_count
    split <;> omega
  · intro hz
    rw [receive_file_block_complete chunk oracle now ip st idx hf hg
      (by simpa [next_count] using hz)]
    exact ⟨rfl, rfl⟩
  · intro hz
    rw [receive_file_block_progress chunk oracle now ip st idx hf hg
      (by simpa [next_count] using hz)]
    constructor
    · simp only [next_count]
      rfl
    · rfl

/-- C2 witness: the amended statement at a concrete block with 5 bytes
remaining and a 3-byte chunk. -/
theorem C2_remaining_monotone_witness :
    (find_send_control "10.0.0.1" demo_state.send_control = some 0 ∧
      (blockAt demo_state.send_control 0).in_file_transfer = true ∧
      (blockAt demo_state.send_control 0).out_file_open = true) ∧
    (next_count [65, 65, 65] (blockAt demo_state.send_control 0) ≤
      (blockAt demo_state.send_control 0).to_receive_count ∧
    (0 ≤ (blockAt demo_state.send_control 0).to_receive_count →
      0 ≤ next_count [65, 65, 65] (blockAt demo_state.send_control 0)) ∧
    (next_count [65, 65, 65] (blockAt demo_state.send_control 0) = 0 →
      (receive_file_block [65, 65, 65] [3] 7 "10.0.0.1"
          demo_state).1.send_control = demo_state.send_control.eraseIdx 0 ∧
      (receive_file_block [65, 65, 65] [3] 7 "10.0.0.1" demo_state).2.2 =
        [Event.fileClosed (blockAt demo_state.send_control 0).out_file_name]) ∧
    (next_count [65, 65, 65] (blockAt demo_state.send_control 0) ≠ 0 →
      (receive_file_block [65, 65, 65] [3] 7 "10.0.0.1"
          demo_state).1.send_control = demo_state.send_control.set 0
          { blockAt demo_state.send_control 0 with
            to_receive_count :=
              next_count [65, 65, 65] (blockAt demo_state.send_control 0)
            transfer_start_time := 7 } ∧
      (receive_file_block [65, 65, 65] [3] 7 "10.0.0.1" demo_state).2.2 =
        [])) :=
  ⟨⟨by decide, by decide, by decide⟩,
    C2_remaining_monotone [65, 65, 65] [3] 7 "10.0.0.1" demo_state 0
      (by decide) (by decide) (by decide)⟩

/-! ## C3 -/

/-- C3: the claim (and the function's own comment block) says the literal
requested name is tried first and a numeric suffix appended only on
collision.  In the code the post-incremented `name_try_count` is already
`1` inside the first iteration, so the very first candidate is already
`"report.txt1"` (byte 49 appended) even on an empty disk where
`"report.txt"` itself is free. -/
theorem C3_first_candidate_has_suffix :
    pick_file_name report_txt [] = some (report_txt ++ [49]) ∧
    report_txt ++ [49] ≠ report_txt ∧
    fileExists report_txt [] = false := by
  decide

/-! ## C4 -/

theorem blockAt_append_length (l : List file_sent_control)
    (a : file_sent_control) : blockAt (l ++ [a]) l.length = a :=
  getD_append_length l a

/-- Helper for C4: a data chunk arriving for the freshly appended control
block either completes it (the appended entry is removed again) or updates
it in place; entries of the rest of the registry are untouched. -/
theorem rfb_on_concat (chunk oracle : List Nat) (now : Nat) (ip : String)
    (l : List file_sent_control) (a : file_sent_control) (d : Disk)
    (hnoip : ∀ b ∈ l, b.ip_address ≠ ip) (ha : a.ip_address = ip)
    (hg : (a.in_file_transfer && a.out_file_open) = true) :
    ∃ tail, (receive_file_block chunk oracle now ip
        { send_control := l ++ [a], disk := d }).1.send_control =
      l ++ tail ∧ tail.length ≤ 1 ∧ ∀ b ∈ tail, b.ip_address = ip := by
  have hfind : find_send_control ip (l ++ [a]) = some l.length :=
    find_send_control_append_single ip l a hnoip ha
  have hba : blockAt (l ++ [a]) l.length = a := blockAt_append_length l a
  have hg2 : ((blockAt (l ++ [a]) l.length).in_file_transfer &&
      (blockAt (l ++ [a]) l.length).out_file_open) = true := by
    rw [hba]
    exact hg
  by_cases hc : next_count chunk a = 0
  · have hc2 : (if (chunk.length : Int) ≤
        (blockAt (l ++ [a]) l.length).to_receive_count then
        (blockAt (l ++ [a]) l.length).to_receive_count - (chunk.length : Int)
      else (blockAt (l ++ [a]) l.length).to_receive_count) = 0 := by
      rw [hba]
      simpa [next_count] using hc
    rw [receive_file_block_complete chunk oracle now ip
      { send_control := l ++ [a], disk := d } l.length hfind hg2 hc2]
    exact ⟨[], by simp [eraseIdx_append_length], by simp, by simp⟩
  · have hc2 : (if (chunk.length : Int) ≤
        (blockAt (l ++ [a]) l.length).to_receive_count then
        (blockAt (l ++ [a]) l.length).to_receive_count - (chunk.length : Int)
      else (blockAt (l ++ [a]) l.length).to_receive_count) ≠ 0 := by
      rw [hba]
      simpa [next_count] using hc
    rw [receive_file_block_progress chunk oracle now ip
      { send_control := l ++ [a], disk := d } l.length hfind hg2 hc2]
    simp only [hba, getD_append_length]
    rw [set_append_length]
    refine ⟨_, rfl, by simp, ?_⟩
    intro b hb
    rw [List.mem_singleton] at hb
    subst hb
    exact ha

/-- C4: in every reachable registry state there is at most one control
block per peer address (the mapped addresses are pairwise distinct), and
when a Send-kind header arrives from a peer that already has an open
inbound transfer, the old transfer is aborted - its output file is closed
and its entry removed - before the new one begins: afterwards the registry
is the old one minus that entry plus at most one fresh entry for this
peer, and the one-block-per-peer property still holds. -/
theorem C4_single_block_per_peer (st : ChatState) (hr : Reachable st) :
    (st.send_control.map file_sent_control.ip_address).Nodup ∧
    ∀ (buf : List Nat) (rc : Nat) (oracle : List Nat) (now : Nat)
      (ip : String) (idx : Nat), 0 < now →
      find_send_control ip st.send_control = some idx →
      Event.fileClosed (blockAt st.send_control idx).out_file_name ∈
        (receive_file_start buf rc oracle now ip st).2 ∧
      (∃ tail, (receive_file_start buf rc oracle now ip st).1.send_control =
        st.send_control.eraseIdx idx ++ tail ∧ tail.length ≤ 1 ∧
        ∀ b ∈ tail, b.ip_address = ip) ∧
      ((receive_file_start buf rc oracle now ip st).1.send_control.map
        file_sent_control.ip_address).Nodup := by
  have hwfs := reachable_wfs st hr
  refine ⟨hwfs.2, ?_⟩
  intro buf rc oracle now ip idx hnow hf
  have hlt := find_send_control_some_lt ip st.send_control idx hf
  have hgood := hwfs.1 (blockAt st.send_control idx) (blockAt_mem _ _ hlt)
  have hg : ((blockAt st.send_control idx).in_file_transfer &&
      (blockAt st.send_control idx).out_file_open) = true := by
    rw [hgood.1, hgood.2.1]
    rfl
  have habort : abort_previous ip st =
      ({ st with send_control := st.send_control.eraseIdx idx },
        [Event.fileClosed (blockAt st.send_control idx).out_file_name]) := by
    rw [abort_previous_some ip st idx hf, hg]
    rfl
  have hnoip : ∀ b ∈ st.send_control.eraseIdx idx, b.ip_address ≠ ip :=
    find_send_control_eraseIdx ip st.send_control idx hwfs.2 hf
  refine ⟨?_, ?_,
    (wfs_start_preserved buf rc oracle now ip st hnow hwfs).2⟩
  · by_cases h0 : (decode_header buf).file_size = 0
    · rw [receive_file_start_zero buf rc oracle now ip st h0, habort]
      simp
    · cases hp : pick_file_name (decode_header buf).file_name
        (abort_previous ip st).1.disk with
      | none =>
        rw [receive_file_start_no_name buf rc oracle now ip st h0 hp, habort]
        simp
      | some nm =>
        by_cases hrc : header_size < rc
        · rw [receive_file_start_created_chunk buf rc oracle now ip st nm
            h0 hp hrc, habort]
          simp
        · rw [receive_file_start_created buf rc oracle now ip st nm
            h0 hp hrc, habort]
          simp
  · by_cases h0 : (decode_header buf).file_size = 0
    · rw [receive_file_start_zero buf rc oracle now ip st h0, habort]
      exact ⟨[], by simp, by simp, by simp⟩
    · cases hp : pick_file_name (decode_header buf).file_name
        (abort_previous ip st).1.disk with
      | none =>
        rw [receive_file_start_no_name buf rc oracle now ip st h0 hp, habort]
        exact ⟨[], by simp, by simp, by simp⟩
      | some nm =>
        by_cases hrc : header_size < rc
        · rw [receive_file_start_created_chunk buf rc oracle now ip st nm
            h0 hp hrc, habort]
          exact rfb_on_concat ((buf.drop header_size).take (rc - header_size))
            oracle now ip (st.send_control.eraseIdx idx)
            (new_control buf now ip nm) (createFile nm st.disk) hnoip rfl rfl
        · rw [receive_file_start_created buf rc oracle now ip st nm
            h0 hp hrc, habort]
          exact ⟨[new_control buf now ip nm], by simp, by simp,
            by intro b hb; rw [List.mem_singleton] at hb; subst hb; rfl⟩

/-- C4 witness: the invariant and abort behaviour evaluated at the
concrete reachable state `st_ex` holding one open transfer from
10.0.0.1, restarted by a second `hdrbuf` header. -/
theorem C4_single_block_per_peer_witness :
    Reachable st_ex ∧
    (st_ex.send_control.map file_sent_control.ip_address).Nodup ∧
    Event.fileClosed (blockAt st_ex.send_control 0).out_file_name ∈
      (receive_file_start hdrbuf 120 [] 2 "10.0.0.1" st_ex).2 :=
  ⟨st_ex_reachable,
    (C4_single_block_per_peer st_ex st_ex_reachable).1,
    ((C4_single_block_per_peer st_ex st_ex_reachable).2 hdrbuf 120 [] 2
      "10.0.0.1" 0 (by decide) (by decide)).1⟩

/-! ## C5 -/

/-- Helper for C5: `receive_file_block` reports the datagram consumed
exactly when the registry holds an entry for the sender, provided every
registry entry is an open in-progress transfer. -/
theorem receive_file_block_consumed_iff (chunk oracle : List Nat)
    (now : Nat) (ip : String) (st : ChatState)
    (hwf : ∀ b ∈ st.send_control, b.in_file_transfer = true ∧
      b.out_file_open = true) :
    (receive_file_block chunk oracle now ip st).2.1 = true ↔
      ∃ b ∈ st.send_control, b.ip_address = ip := by
  cases hf : find_send_control ip st.send_control with
  | none =>
    rw [receive_file_block_none chunk oracle now ip st hf]
    simp only [Bool.false_eq_true, false_iff]
    intro ⟨b, hb, hip⟩
    exact (find_send_control_none_iff ip st.send_control).mp hf b hb hip
  | some idx =>
    have hlt := find_send_control_some_lt ip st.send_control idx hf
    have hmem := blockAt_mem st.send_control idx hlt
    have hgood := hwf (blockAt st.send_control idx) hmem
    have hg : ((blockAt st.send_control idx).in_file_transfer &&
        (blockAt st.send_control idx).out_file_open) = true := by
      rw [hgood.1, hgood.2]
      rfl
    have hip := find_send_control_some_ip ip st.send_control idx hf
    by_cases hc : (if (chunk.length : Int) ≤
        (blockAt st.send_control idx).to_receive_count then
        (blockAt st.send_control idx).to_receive_count - (chunk.length : Int)
      else (blockAt st.send_control idx).to_receive_count) = 0
    · rw [receive_file_block_complete chunk oracle now ip st idx hf hg hc]
      simp only [true_iff]
      exact ⟨blockAt st.send_control idx, hmem, hip⟩
    · rw [receive_file_block_progress chunk oracle now ip st idx hf hg hc]
      simp only [true_iff]
      exact ⟨blockAt st.send_control idx, hmem, hip⟩

/-- C5: inbound dispatch classifies every datagram exhaustively: a
datagram whose leading bytes equal `":xfer:"` is consumed as a transfer
header and never reported as chat text; any other datagram is reported
fully consumed if and only if an open control block exists for the sender
(`receive_file_block` returned true), and otherwise its raw bytes are
reported back to the caller as plain text. -/
theorem C5_dispatch_classification (buf : List Nat) (rc : Nat)
    (oracle : List Nat) (now : Nat) (ip : String) (st : ChatState)
    (hwf : ∀ b ∈ st.send_control, b.in_file_transfer = true ∧
      b.out_file_open = true) :
    (is_xfer_frame buf = true →
      (read_data buf rc oracle now ip st).2.1 = ReadResult.consumed) ∧
    (is_xfer_frame buf = false →
      (((read_data buf rc oracle now ip st).2.1 = ReadResult.consumed) ↔
        ∃ b ∈ st.send_control, b.ip_address = ip) ∧
      ((∀ b ∈ st.send_control, b.ip_address ≠ ip) →
        (read_data buf rc oracle now ip st).2.1 =
          ReadResult.text (buf.take rc))) := by
  constructor
  · intro hx
    rw [read_data_xfer_eq buf rc oracle now ip st hx]
  · intro hx
    rw [read_data_data_eq buf rc oracle now ip st hx]
    constructor
    · by_cases hb : (receive_file_block (buf.take rc) oracle now ip st).2.1
      · simp only [hb, if_true, true_iff]
        exact (receive_file_block_consumed_iff (buf.take rc) oracle now ip
          st hwf).mp hb
      · rw [Bool.not_eq_true] at hb
        simp only [hb, Bool.false_eq_true, if_false]
        constructor
        · intro habs
          exact absurd habs (by simp)
        · intro hex
          exact absurd ((receive_file_block_consumed_iff (buf.take rc) oracle
            now ip st hwf).mpr hex) (by simp [hb])
    · intro hnone
      have hb : (receive_file_block (buf.take rc) oracle now ip st).2.1 =
          false := by
        rw [← Bool.not_eq_true]
        intro habs
        obtain ⟨b, hbmem, hbip⟩ := (receive_file_block_consumed_iff
          (buf.take rc) oracle now ip st hwf).mp habs
        exact hnone b hbmem hbip
      simp [hb]

/-- C5 witness: classification evaluated on the concrete state holding
one open block: a tag-prefixed frame is consumed, and a plain-text frame
from an unknown sender would be handed back verbatim. -/
theorem C5_dispatch_classification_witness :
    (∀ b ∈ demo_state.send_control, b.in_file_transfer = true ∧
      b.out_file_open = true) ∧
    (is_xfer_frame [104, 105] = false →
      (((read_data [104, 105] 2 [] 3 "10.0.0.9" demo_state).2.1 =
          ReadResult.consumed) ↔
        ∃ b ∈ demo_state.send_control, b.ip_address = "10.0.0.9") ∧
      ((∀ b ∈ demo_state.send_control, b.ip_address ≠ "10.0.0.9") →
        (read_data [104, 105] 2 [] 3 "10.0.0.9" demo_state).2.1 =
          ReadResult.text ([104, 105].take 2))) :=
  ⟨by decide,
    (C5_dispatch_classification [104, 105] 2 [] 3 "10.0.0.9" demo_state
      (by decide)).2⟩

/-! ## C6 -/

/-- C6 counterexample: a Send header with `fileSize = 0` arriving from a
peer that has an open inbound transfer is not ignored entirely - the
existing control block is aborted and erased first, so the registry
changes from one entry to none. -/
theorem C6_zero_size_counterexample :
    (decode_header zbuf).file_size = 0 ∧
    (decode_header zbuf).trans_type = trans_type_send ∧
    demo_state.send_control ≠ [] ∧
    (read_data zbuf 120 [] 2 "10.0.0.1" demo_state).1.send_control = [] := by
  decide

/-- C6 (amended): a Send header with `fileSize = 0` never creates a
control block and never creates or writes a file - the disk is unchanged
and the registry gains nothing; however, a pre-existing block of the same
sender is still aborted (entry erased) before the size check, so for a
sender with no open transfer the state is fully unchanged and nothing
happens, while for a sender with an open transfer that transfer ends. -/
theorem C6_zero_size_no_block (buf : List Nat) (rc : Nat)
    (oracle : List Nat) (now : Nat) (ip : String) (st : ChatState)
    (h0 : (decode_header buf).file_size = 0) :
    (receive_file_start buf rc oracle now ip st).1.disk = st.disk ∧
    (receive_file_start buf rc oracle now ip st).1.send_control =
      (match find_send_control ip st.send_control with
        | some idx => st.send_control.eraseIdx idx
        | none => st.send_control) ∧
    (find_send_control ip st.send_control = none →
      (receive_file_start buf rc oracle now ip st) = (st, [])) := by
  rw [receive_file_start_zero buf rc oracle now ip st h0]
  cases hf : find_send_control ip st.send_control with
  | none =>
    rw [abort_previous_none ip st hf]
    exact ⟨rfl, rfl, fun _ => rfl⟩
  | some idx =>
    rw [abort_previous_some ip st idx hf]
    refine ⟨rfl, rfl, ?_⟩
    intro habs
    simp at habs
/-- C6 witness: the amended statement at the zero-size header `zbuf` and
the one-block state. -/
theorem C6_zero_size_no_block_witness :
    (decode_header zbuf).file_size = 0 ∧
    (receive_file_start zbuf 120 [] 2 "10.0.0.1" demo_state).1.disk =
      demo_state.disk ∧
    (receive_file_start zbuf 120 [] 2 "10.0.0.1" demo_state).1.send_control =
      (match find_send_control "10.0.0.1" demo_state.send_control with
        | some idx => demo_state.send_control.eraseIdx idx
        | none => demo_state.send_control) :=
  ⟨by decide,
    (C6_zero_size_no_block zbuf 120 [] 2 "10.0.0.1" demo_state
      (by decide)).1,
    (C6_zero_size_no_block zbuf 120 [] 2 "10.0.0.1" demo_state
      (by decide)).2.1⟩

/-! ## C7 -/

theorem filter_congr_mem (l : List file_sent_control)
    (p q : file_sent_control → Bool) (h : ∀ b ∈ l, p b = q b) :
    l.filter p = l.filter q := by
  induction l with
  | nil => rfl
  | cons b rest ih =>
    simp only [List.filter_cons, h b (by simp)]
    rw [ih (fun c hc => h c (by simp [hc]))]

theorem any_congr_mem (l : List file_sent_control)
    (p q : file_sent_control → Bool) (h : ∀ b ∈ l, p b = q b) :
    l.any p = l.any q := by
  induction l with
  | nil => rfl
  | cons b rest ih =>
    simp only [List.any_cons, h b (by simp)]
    rw [ih (fun c hc => h c (by simp [hc]))]

theorem expired_pos (now : Nat) (b : file_sent_control)
    (hb : 0 < b.transfer_start_time) :
    expired now b = decide (b.transfer_start_time + 10 ≤ now) := by
  simp [expired, hb]

/-- C7: the timeout sweep removes exactly the control blocks whose
last-activity timestamp is 10 or more seconds old: each such block has
its output closed (if open) and its entry removed, the sweep reports a
timeout exactly when such a block exists, and every still-active block
(and the disk) is left unchanged, in order. -/
theorem C7_sweep_exact (now : Nat) (st : ChatState)
    (hpos : ∀ b ∈ st.send_control, 0 < b.transfer_start_time) :
    (transfer_timed_out now st).1.send_control =
      st.send_control.filter
        (fun b => ! decide (b.transfer_start_time + 10 ≤ now)) ∧
    (transfer_timed_out now st).1.disk = st.disk ∧
    (transfer_timed_out now st).2.1 =
      st.send_control.any
        (fun b => decide (b.transfer_start_time + 10 ≤ now)) ∧
    (transfer_timed_out now st).2.2 =
      (st.send_control.filter
        (fun b => decide (b.transfer_start_time + 10 ≤ now))).filterMap
        (fun b => if b.out_file_open then
          some (Event.fileClosed b.out_file_name) else none) := by
  refine ⟨?_, rfl, ?_, ?_⟩
  · show (timed_out_go now st.send_control).1 = _
    rw [timed_out_go_blocks]
    exact filter_congr_mem st.send_control _ _
      (fun b hb => by rw [expired_pos now b (hpos b hb)])
  · show (timed_out_go now st.send_control).2.1 = _
    rw [timed_out_go_flag]
    exact any_congr_mem st.send_control _ _
      (fun b hb => expired_pos now b (hpos b hb))
  · show (timed_out_go now st.send_control).2.2 = _
    rw [timed_out_go_events]
    rw [filter_congr_mem st.send_control (expired now)
      (fun b => decide (b.transfer_start_time + 10 ≤ now))
      (fun b hb => expired_pos now b (hpos b hb))]

/-- A block last active at second 5: expired once the clock reaches 15. -/
def sweep_blockA : file_sent_control :=
  { in_file_transfer := true, to_receive_count := 3, out_file_open := true,
    out_file_name := [103], transfer_start_time := 5,
    ip_address := "10.0.0.2" }

/-- A block last active at second 15: still active at second 20. -/
def sweep_blockB : file_sent_control :=
  { in_file_transfer := true, to_receive_count := 4, out_file_open := true,
    out_file_name := [104], transfer_start_time := 15,
    ip_address := "10.0.0.3" }

def sweep_state : ChatState :=
  { send_control := [sweep_blockA, sweep_blockB],
    disk := [([103], []), ([104], [])] }

/-- C7 witness: the sweep at second 20 on one 15-second-stale block and
one 5-second-fresh block. -/
theorem C7_sweep_exact_witness :
    (∀ b ∈ sweep_state.send_control, 0 < b.transfer_start_time) ∧
    ((transfer_timed_out 20 sweep_state).1.send_control =
      sweep_state.send_control.filter
        (fun b => ! decide (b.transfer_start_time + 10 ≤ 20)) ∧
    (transfer_timed_out 20 sweep_state).1.disk = sweep_state.disk ∧
    (transfer_timed_out 20 sweep_state).2.1 =
      sweep_state.send_control.any
        (fun b => decide (b.transfer_start_time + 10 ≤ 20)) ∧
    (transfer_timed_out 20 sweep_state).2.2 =
      (sweep_state.send_control.filter
        (fun b => decide (b.transfer_start_time + 10 ≤ 20))).filterMap
        (fun b => if b.out_file_open then
          some (Event.fileClosed b.out_file_name) else none)) :=
  ⟨by decide, C7_sweep_exact 20 sweep_state (by decide)⟩

/-! ## C8 -/

/-- C8 counterexample: a 6-byte datagram holding just `":xfer:"` is far
shorter than the 120-byte header, and the spec-side decoder rejects it as
malformed; the code instead consumes it as a transfer header (decoding the
zero bytes beyond the datagram into `trans_type = 0`) and reports nothing -
no error condition exists. -/
theorem C8_short_header_counterexample :
    xfer_tag.length < header_size ∧
    decodeHeader_spec xfer_tag = Except.error () ∧
    read_data xfer_tag 6 [] 1 "10.0.0.1" { send_control := [], disk := [] } =
      ({ send_control := [], disk := [] }, ReadResult.consumed, []) ∧
    (decode_header xfer_tag).trans_type = 0 := by
  refine ⟨by decide, rfl, by decide, by decide⟩

/-- C8 (amended): decoding a transfer header never fails and no
`MalformedHeader` condition exists: `file_transfer` unconditionally
overlays the fixed 120-byte header on the receive buffer, so any
`":xfer:"`-prefixed datagram - however short - is consumed as a transfer
header; when the decoded `trans_type` matches neither Send nor GetRequest
the frame is silently dropped with the state unchanged and nothing
reported. -/
theorem C8_no_decode_error (buf : List Nat) (rc : Nat) (oracle : List Nat)
    (now : Nat) (ip : String) (st : ChatState)
    (hx : is_xfer_frame buf = true) :
    (read_data buf rc oracle now ip st).2.1 = ReadResult.consumed ∧
    ((decode_header buf).trans_type ≠ trans_type_send →
      (read_data buf rc oracle now ip st).1 = st ∧
      (read_data buf rc oracle now ip st).2.2 = []) := by
  rw [read_data_xfer_eq buf rc oracle now ip st hx]
  refine ⟨rfl, ?_⟩
  intro ht
  rw [file_transfer_other_eq buf rc oracle now ip st ht]
  exact ⟨rfl, rfl⟩

/-- C8 witness: the amended statement at the bare 6-byte tag datagram. -/
theorem C8_no_decode_error_witness :
    is_xfer_frame xfer_tag = true ∧
    (read_data xfer_tag 6 [] 1 "10.0.0.1" demo_state).2.1 =
      ReadResult.consumed :=
  ⟨by decide,
    (C8_no_decode_error xfer_tag 6 [] 1 "10.0.0.1" demo_state
      (by decide)).1⟩

/-! ## C9 -/

/-- C9 counterexample: the first instance on the host (`running_count = 1`,
the process list shows only itself) transmits on `basePort + 1` and
receives on `basePort` - the opposite of the claimed assignment. -/
theorem C9_port_roles_counterexample :
    port_roles 5777 1 = (5778, 5777) ∧
    port_roles 5777 1 ≠ (5777, 5778) := by
  decide

/-- C9 (amended): the first instance on the host sends on `basePort + 1`
and receives on `basePort`; every later instance (more than one `chat`
process running) swaps: it sends on `basePort` and receives on
`basePort + 1`. -/
theorem C9_port_roles (base : Nat) :
    port_roles base 1 = (base + 1, base) ∧
    (∀ rc : Nat, 1 < rc → port_roles base rc = (base, base + 1)) ∧
    (∀ rc : Nat, rc ≤ 1 → port_roles base rc = (base + 1, base)) := by
  refine ⟨by simp [port_roles], ?_, ?_⟩
  · intro rc h
    simp [port_roles, h]
  · intro rc h
    have hn : ¬ 1 < rc := by omega
    simp [port_roles, hn]

/-- C9 witness: the amended port assignment at base port 5777 for the
first and for a second instance. -/
theorem C9_port_roles_witness :
    port_roles 5777 1 = (5778, 5777) ∧ 1 < 2 ∧
    port_roles 5777 2 = (5777, 5778) :=
  ⟨(C9_port_roles 5777).1, by decide, (C9_port_roles 5777).2.1 2 (by decide)⟩

/-! ## C10 -/

theorem write_loop_nil (bytes tryCount : Nat) :
    write_loop [] bytes tryCount = bytes := rfl

theorem appendFile_nil (nm : List Nat) (d : Disk) :
    appendFile nm [] d = d := by
  induction d with
  | nil => rfl
  | cons e rest ih =>
    by_cases he : e.1 == nm
    · simp [appendFile, he]
    · simp only [appendFile, he, Bool.false_eq_true, if_false]
      rw [ih]

/-- C10: `receive_file_block` decrements `to_receive_count` by the size of
the received chunk, not by the number of bytes actually written: the disk
gains only the bytes the (oracle-driven) bounded write retry managed to
write - nothing at all when every write fails - yet the counter still
drops by the full chunk size and `transfer_start_time` is refreshed, so a
transfer whose chunk sizes sum to the header's `fileSize` completes
(output closed, block removed) even though the output file holds fewer
bytes than `fileSize`. -/
theorem C10_counter_counts_requested_bytes (chunk oracle : List Nat)
    (now : Nat) (ip : String) (st : ChatState) (idx : Nat)
    (hf : find_send_control ip st.send_control = some idx)
    (hin : (blockAt st.send_control idx).in_file_transfer = true)
    (hop : (blockAt st.send_control idx).out_file_open = true) :
    (receive_file_block chunk oracle now ip st).2.1 = true ∧
    (receive_file_block chunk oracle now ip st).1.disk =
      appendFile (blockAt st.send_control idx).out_file_name
        (chunk.take (chunk.length - write_loop oracle chunk.length 0))
        st.disk ∧
    (oracle = [] →
      (receive_file_block chunk oracle now ip st).1.disk = st.disk) ∧
    ((chunk.length : Int) < (blockAt st.send_control idx).to_receive_count →
      (receive_file_block chunk oracle now ip st).1.send_control =
        st.send_control.set idx
          { blockAt st.send_control idx with
            to_receive_count :=
              (blockAt st.send_control idx).to_receive_count -
                (chunk.length : Int)
            transfer_start_time := now }) ∧
    ((chunk.length : Int) = (blockAt st.send_control idx).to_receive_count →
      (receive_file_block chunk oracle now ip st).1.send_control =
        st.send_control.eraseIdx idx ∧
      (receive_file_block chunk oracle now ip st).2.2 =
        [Event.fileClosed (blockAt st.send_control idx).out_file_name]) := by
  have hg : ((blockAt st.send_control idx).in_file_transfer &&
      (blockAt st.send_control idx).out_file_open) = true := by
    rw [hin, hop]
    rfl
  have hdisk : (receive_file_block chunk oracle now ip st).1.disk =
      appendFile (blockAt st.send_control idx).out_file_name
        (chunk.take (chunk.length - write_loop oracle chunk.length 0))
        st.disk := by
    by_cases hc : (if (chunk.length : Int) ≤
        (blockAt st.send_control idx).to_receive_count then
        (blockAt st.send_control idx).to_receive_count - (chunk.length : Int)
      else (blockAt st.send_control idx).to_receive_count) = 0
    · rw [receive_file_block_complete chunk oracle now ip st idx hf hg hc]
    · rw [receive_file_block_progress chunk oracle now ip st idx hf hg hc]
  have hflag : (receive_file_block chunk oracle now ip st).2.1 = true := by
    by_cases hc : (if (chunk.length : Int) ≤
        (blockAt st.send_control idx).to_receive_count then
        (blockAt st.send_control idx).to_receive_count - (chunk.length : Int)
      else (blockAt st.send_control idx).to_receive_count) = 0
    · rw [receive_file_block_complete chunk oracle now ip st idx hf hg hc]
    · rw [receive_file_block_progress chunk oracle now ip st idx hf hg hc]
  refine ⟨hflag, hdisk, ?_, ?_, ?_⟩
  · intro ho
    subst ho
    rw [hdisk, write_loop_nil, Nat.sub_self, List.take_zero, appendFile_nil]
  · intro hlt
    have hc : (if (chunk.length : Int) ≤
        (blockAt st.send_control idx).to_receive_count then
        (blockAt st.send_control idx).to_receive_count - (chunk.length : Int)
      else (blockAt st.send_control idx).to_receive_count) ≠ 0 := by
      rw [if_pos (le_of_lt hlt)]
      omega
    rw [receive_file_block_progress chunk oracle now ip st idx hf hg hc]
    simp only [if_pos (le_of_lt hlt)]
    rfl
  · intro heq
    have hc : (if (chunk.length : Int) ≤
        (blockAt st.send_control idx).to_receive_count then
        (blockAt st.send_control idx).to_receive_count - (chunk.length : Int)
      else (blockAt st.send_control idx).to_receive_count) = 0 := by
      rw [if_pos (le_of_eq heq), ← heq]
      omega
    rw [receive_file_block_complete chunk oracle now ip st idx hf hg hc]
    exact ⟨rfl, rfl⟩

/-- C10 witness: a 5-byte chunk matching the 5 remaining bytes of the
demo block, with every write failing (empty oracle): the transfer
completes and the block is removed, yet the output file on disk still
holds 0 of the expected 5 bytes. -/
theorem C10_counter_counts_requested_bytes_witness :
    (find_send_control "10.0.0.1" demo_state.send_control = some 0 ∧
      (blockAt demo_state.send_control 0).in_file_transfer = true ∧
      (blockAt demo_state.send_control 0).out_file_open = true ∧
      ((List.replicate 5 65).length : Int) =
        (blockAt demo_state.send_control 0).to_receive_count) ∧
    (receive_file_block (List.replicate 5 65) [] 9 "10.0.0.1"
      demo_state).2.1 = true ∧
    (receive_file_block (List.replicate 5 65) [] 9 "10.0.0.1"
      demo_state).1.disk = demo_state.disk ∧
    ((receive_file_block (List.replicate 5 65) [] 9 "10.0.0.1"
        demo_state).1.send_control = demo_state.send_control.eraseIdx 0 ∧
      (receive_file_block (List.replicate 5 65) [] 9 "10.0.0.1"
        demo_state).2.2 =
        [Event.fileClosed (blockAt demo_state.send_control 0).out_file_name]) :=
  ⟨⟨by decide, by decide, by decide, by decide⟩,
    (C10_counter_counts_requested_bytes (List.replicate 5 65) [] 9
      "10.0.0.1" demo_state 0 (by decide) (by decide) (by decide)).1,
    (C10_counter_counts_requested_bytes (List.replicate 5 65) [] 9
      "10.0.0.1" demo_state 0 (by decide) (by decide) (by decide)).2.2.1
      rfl,
    (C10_counter_counts_requested_bytes (List.replicate 5 65) [] 9
      "10.0.0.1" demo_state 0 (by decide) (by decide) (by decide)).2.2.2.2
      (by decide)⟩
